import Mathlib

/-!
Verification of the TransR model slice of the pykeen knowledge-graph
embedding library against its natural-language specification.

The embedding models float tensors by exact real-valued vectors
(`Fin n → ℝ`); batched tensors are functions from index types to slices, and
per-slice operations act independently on each slice, mirroring the
broadcast semantics of the source.  Shared numeric utilities from
`pykeen.utils` are not part of the shown excerpt (only their tests and
callers are), so they are modelled from the specification; each such
definition carries a doc comment starting with `Modelled from the spec:`.
-/

open BigOperators

/-- The norm orders supported by `clamp_norm`: p ∈ {1, 2, ∞}. -/
inductive NormOrder : Type
  | one : NormOrder
  | two : NormOrder
  | inf : NormOrder

/-- The p-norm of a vector slice, for p ∈ {1, 2, ∞}:
sum of absolute values, Euclidean norm, or maximum absolute value. -/
noncomputable def pnorm {n : ℕ} : NormOrder → (Fin n → ℝ) → ℝ
  | NormOrder.one, x => ∑ i, |x i|
  | NormOrder.two, x => Real.sqrt (∑ i, x i ^ 2)
  | NormOrder.inf, x => (List.ofFn fun i => |x i|).foldr max 0

/-- The fixed small floating tolerance ε = 1e-6 used by the tests of
`clamp_norm` and `project_entity`. -/
noncomputable def clampEps : ℝ := 1 / 1000000

/-- Modelled from the spec: `clamp_norm` from `pykeen.utils` is not in the
shown excerpt.  Per §4.1, a slice whose p-norm exceeds the maximum norm is
rescaled by `maxnorm / norm`, while a slice already within the limit is
returned unchanged. -/
noncomputable def clamp_norm {n : ℕ} (p : NormOrder) (maxnorm : ℝ)
    (x : Fin n → ℝ) : Fin n → ℝ :=
  if pnorm p x ≤ maxnorm then x else fun i => maxnorm / pnorm p x * x i

/-- Modelled from the spec: `combine_complex` from `pykeen.utils` is not in
the shown excerpt.  Per §4.2 it packs real and imaginary parts of equal
shape into one tensor of doubled trailing dimension; the concatenation
convention is the fixed one. -/
def combine_complex (x_re x_im : List ℝ) : List ℝ :=
  x_re ++ x_im

/-- Modelled from the spec: `split_complex` from `pykeen.utils` is not in
the shown excerpt.  Per §4.2 it splits a packed complex tensor back into
its real and imaginary halves along the trailing dimension. -/
def split_complex (x : List ℝ) : List ℝ × List ℝ :=
  (x.take (x.length / 2), x.drop (x.length / 2))

/-- Modelled from the spec: the `identity_embed` map of §4.3, the fixed
K×D identity-like mapping that pads or truncates a D-dimensional entity
embedding into the K-dimensional relation space. -/
def identity_embed {D K : ℕ} (e : Fin D → ℝ) : Fin K → ℝ :=
  fun k => if h : (k : ℕ) < D then e ⟨k, h⟩ else 0

/-- Modelled from the spec: `project_entity` from `pykeen.utils` is not in
the shown excerpt.  Per §4.3 it computes the relation-subspace image of an
entity embedding as `r_p ⊗ (e_p ⬝ e) + identity_embed e` and clamps the
result to unit 2-norm, avoiding materialization of the full projection
matrix. -/
noncomputable def project_entity {D K : ℕ} (e e_p : Fin D → ℝ)
    (r_p : Fin K → ℝ) : Fin K → ℝ :=
  clamp_norm NormOrder.two 1
    (fun k => r_p k * (∑ i, e_p i * e i) + identity_embed e k)

/-- The explicit matrix form of the entity projection, stated from the
spec's words for comparison with `project_entity`: materialize the matrix
`M = r_p e_pᵀ + I` and compute `clamp_norm (M e, p=2, maxnorm=1)`. -/
noncomputable def project_entity_matrix {D K : ℕ} (e e_p : Fin D → ℝ)
    (r_p : Fin K → ℝ) : Fin K → ℝ :=
  clamp_norm NormOrder.two 1
    (fun k => ∑ i, (r_p k * e_p i + if (k : ℕ) = (i : ℕ) then 1 else 0) * e i)

/-- Row-vector-by-matrix product, the `h @ m_r` of the source: the slice
`h` (dim D) is mapped through the D×K matrix to a dim-K slice. -/
noncomputable def vecMat {D K : ℕ} (x : Fin D → ℝ) (m : Fin D → Fin K → ℝ) :
    Fin K → ℝ :=
  fun k => ∑ i, x i * m i k

/-- The `view(-1, embedding_dim, relation_dim)` of the source: reinterpret a
flat length-D·K relation-projection vector as a D×K matrix in row-major
order. -/
def viewMat {D K : ℕ} (v : Fin (D * K) → ℝ) : Fin D → Fin K → ℝ :=
  fun i k => v ⟨(i : ℕ) * K + (k : ℕ), by
    have h3 : (i : ℕ) * K + (k : ℕ) < ((i : ℕ) + 1) * K := by
      rw [Nat.add_mul, Nat.one_mul]
      exact Nat.add_lt_add_left k.isLt _
    exact Nat.lt_of_lt_of_le h3 (Nat.mul_le_mul i.isLt (Nat.le_refl K))⟩

/-- `TransR.interaction_function` from `trans_r.py` (lines 131–162):
project head and tail through the relation-specific map, clamp both
projections to unit 2-norm, and return the negated squared 2-norm of
`h_bot + r - t_bot` along the last axis.  Batched tensors are functions
from a batch index `b` and a candidate index `c` to slices; broadcasting
of an unsqueezed axis is a slice function that ignores that index. -/
noncomputable def interaction_function {B C : Type} {D K : ℕ}
    (h : B → C → Fin D → ℝ) (r : B → C → Fin K → ℝ) (t : B → C → Fin D → ℝ)
    (m_r : B → C → Fin D → Fin K → ℝ) : B → C → ℝ :=
  fun b c =>
    let h_bot := vecMat (h b c) (m_r b c);
    let t_bot := vecMat (t b c) (m_r b c);
    let h_bot2 := clamp_norm NormOrder.two 1 h_bot;
    let t_bot2 := clamp_norm NormOrder.two 1 t_bot;
    -pnorm NormOrder.two (fun k => h_bot2 k + r b c k - t_bot2 k) ^ 2

/-- The state of a TransR model (`trans_r.py`): entity embeddings of
dimension D for E entities, relation embeddings of dimension K for R
relations, flat relation-projection vectors of dimension D·K, and the
stored `scoring_fct_norm` hyper-parameter. -/
structure TransRModel (E R D K : ℕ) : Type where
  entity_embeddings : Fin E → Fin D → ℝ
  relation_embeddings : Fin R → Fin K → ℝ
  relation_projections : Fin R → Fin (D * K) → ℝ
  scoring_fct_norm : ℕ

/-- `TransR.score_hrt` (lines 164–171): for each batch row `(h, r, t)`,
look up the three embeddings and the relation projection, unsqueeze a
singleton candidate axis, evaluate the interaction function, and view the
result as a (batch, 1) score tensor. -/
noncomputable def score_hrt {E R D K : ℕ} (M : TransRModel E R D K)
    (hrt_batch : List (Fin E × Fin R × Fin E)) : List (List ℝ) :=
  hrt_batch.map fun x =>
    List.ofFn fun c : Fin 1 =>
      interaction_function
        (fun (_ : Unit) (_ : Fin 1) => M.entity_embeddings x.1)
        (fun _ _ => M.relation_embeddings x.2.1)
        (fun _ _ => M.entity_embeddings x.2.2)
        (fun _ _ => viewMat (M.relation_projections x.2.1))
        () c

/-- `TransR.score_t` (lines 173–180): for each batch row `(h, r)`, score
every candidate tail from the full entity table against the fixed head and
relation, yielding a (batch, num_entities) score tensor. -/
noncomputable def score_t {E R D K : ℕ} (M : TransRModel E R D K)
    (hr_batch : List (Fin E × Fin R)) : List (List ℝ) :=
  hr_batch.map fun x =>
    List.ofFn fun c : Fin E =>
      interaction_function
        (fun (_ : Unit) (_ : Fin E) => M.entity_embeddings x.1)
        (fun _ _ => M.relation_embeddings x.2)
        (fun _ e => M.entity_embeddings e)
        (fun _ _ => viewMat (M.relation_projections x.2))
        () c

/-- `TransR.score_h` (lines 182–189): for each batch row `(r, t)`, score
every candidate head from the full entity table against the fixed relation
and tail, yielding a (batch, num_entities) score tensor. -/
noncomputable def score_h {E R D K : ℕ} (M : TransRModel E R D K)
    (rt_batch : List (Fin R × Fin E)) : List (List ℝ) :=
  rt_batch.map fun x =>
    List.ofFn fun c : Fin E =>
      interaction_function
        (fun (_ : Unit) (e : Fin E) => M.entity_embeddings e)
        (fun _ _ => M.relation_embeddings x.1)
        (fun _ _ => M.entity_embeddings x.2)
        (fun _ _ => viewMat (M.relation_projections x.1))
        () c

/-- A raw embedding store as consumed at model construction: a declared
number of embeddings, a declared embedding dimension, and a weight table. -/
structure RawStore : Type where
  num_embeddings : ℕ
  embedding_dim : ℕ
  weights : List (List ℝ)

/-- The construction-time configuration failure of §7. -/
inductive ConfigurationError : Type
  | dimensionMismatch : ConfigurationError

/-- Total lookup into a raw store's weight table (out-of-table reads give
0; construction validates dimensions before any lookup matters). -/
def storeLookup (s : RawStore) (i j : ℕ) : ℝ :=
  ((s.weights.getD i []).getD j 0)

/-- Modelled from the spec: the base-model construction
(`EntityRelationEmbeddingModel.__init__`) is not in the shown excerpt.
Per §4.5/§7, constructing a model from embedding stores whose declared
dimensionalities do not match the model's expected dimensions fails fast
with a `ConfigurationError`-kind condition; only a successfully constructed
model (the `Except.ok` payload) can be passed to a scoring entry point. -/
def mkTransR (E R D K : ℕ) (ent rel proj : RawStore) :
    Except ConfigurationError (TransRModel E R D K) :=
  if ent.embedding_dim = D ∧ rel.embedding_dim = K ∧
      proj.embedding_dim = D * K then
    Except.ok
      { entity_embeddings := fun i j => storeLookup ent (i : ℕ) (j : ℕ)
        relation_embeddings := fun i j => storeLookup rel (i : ℕ) (j : ℕ)
        relation_projections := fun i j => storeLookup proj (i : ℕ) (j : ℕ)
        scoring_fct_norm := 1 }
  else Except.error ConfigurationError.dimensionMismatch

/-- A concrete TransR model with zero embeddings and
`scoring_fct_norm = 1`, used to instantiate hyper-parameter independence. -/
noncomputable def transRZeroNorm1 : TransRModel 1 1 1 1 :=
  { entity_embeddings := fun _ _ => 0
    relation_embeddings := fun _ _ => 0
    relation_projections := fun _ _ => 0
    scoring_fct_norm := 1 }

/-- The same concrete TransR model as `transRZeroNorm1` except that
`scoring_fct_norm = 2`. -/
noncomputable def transRZeroNorm2 : TransRModel 1 1 1 1 :=
  { entity_embeddings := fun _ _ => 0
    relation_embeddings := fun _ _ => 0
    relation_projections := fun _ _ => 0
    scoring_fct_norm := 2 }

/-- Does the list start with the given pattern? -/
def startsWithSig (pat text : List Char) : Bool :=
  match pat, text with
  | [], _ => true
  | _ :: _, [] => false
  | a :: as, b :: bs => a == b && startsWithSig as bs

/-- Does the text contain the pattern as a contiguous substring? -/
def containsSig (pat : List Char) : List Char → Bool
  | [] => startsWithSig pat []
  | b :: bs => startsWithSig pat (b :: bs) || containsSig pat bs

/-- Modelled from the spec: the fixed out-of-memory message signature
`_CUDA_OOM_ERROR` from `pykeen.utils` (not in the shown excerpt); §4.6
describes it as a fixed substring signature of the backend's out-of-memory
failure message. -/
def cudaOomSig : List Char := "CUDA out of memory.".toList

/-- Modelled from the spec: the fixed cuDNN message signature
`_CUDNN_ERROR` from `pykeen.utils` (not in the shown excerpt); §4.6
describes it as a fixed substring signature of cuDNN/driver failure
messages. -/
def cudnnSig : List Char := "cuDNN error".toList

/-- Modelled from the spec: `is_cuda_oom_error` from `pykeen.utils` (not in
the shown excerpt) recognizes whether a caught failure's message matches the
out-of-memory pattern by fixed-substring matching (§4.6). -/
def is_cuda_oom_error (msg : List Char) : Bool :=
  containsSig cudaOomSig msg

/-- Modelled from the spec: `is_cudnn_error` from `pykeen.utils` (not in
the shown excerpt) recognizes whether a caught failure's message matches the
cuDNN/driver pattern by fixed-substring matching (§4.6). -/
def is_cudnn_error (msg : List Char) : Bool :=
  containsSig cudnnSig msg

section NormLemmas

/-- Folding `max` from 0 over a list of reals is nonnegative. -/
lemma foldr_max_nonneg : ∀ l : List ℝ, 0 ≤ l.foldr max 0
  | [] => le_refl 0
  | a :: l => le_trans (foldr_max_nonneg l) (le_max_right a _)

/-- Folding `max` from 0 commutes with scaling by a nonnegative constant. -/
lemma foldr_max_smul (c : ℝ) (hc : 0 ≤ c) :
    ∀ l : List ℝ, ((l.map fun a => c * a).foldr max 0) = c * l.foldr max 0
  | [] => by simp
  | a :: l => by
      simp only [List.map_cons, List.foldr_cons, foldr_max_smul c hc l]
      exact (mul_max_of_nonneg a _ hc).symm

/-- Every p-norm is nonnegative. -/
lemma pnorm_nonneg {n : ℕ} (p : NormOrder) (x : Fin n → ℝ) : 0 ≤ pnorm p x := by
  cases p with
  | one => exact Finset.sum_nonneg fun i _ => abs_nonneg (x i)
  | two => exact Real.sqrt_nonneg _
  | inf => exact foldr_max_nonneg _

/-- Absolute homogeneity of the p-norm for nonnegative scalars. -/
lemma pnorm_smul {n : ℕ} (p : NormOrder) (c : ℝ) (hc : 0 ≤ c) (x : Fin n → ℝ) :
    pnorm p (fun i => c * x i) = c * pnorm p x := by
  cases p with
  | one =>
      simp only [pnorm, abs_mul, abs_of_nonneg hc, Finset.mul_sum]
  | two =>
      simp only [pnorm, mul_pow, ← Finset.mul_sum]
      rw [Real.sqrt_mul (sq_nonneg c), Real.sqrt_sq hc]
  | inf =>
      simp only [pnorm]
      have h1 : (List.ofFn fun i => |c * x i|) =
          (List.ofFn fun i : Fin n => |x i|).map fun a => c * a := by
        rw [List.map_ofFn]
        refine congrArg List.ofFn (funext fun i => ?_)
        simp [Function.comp, abs_mul, abs_of_nonneg hc]
      rw [h1, foldr_max_smul c hc]

/-- The p-norm of a clamped slice never exceeds the (nonnegative) limit. -/
lemma clamp_norm_pnorm_le {n : ℕ} (p : NormOrder) (m : ℝ) (x : Fin n → ℝ)
    (hm : 0 ≤ m) : pnorm p (clamp_norm p m x) ≤ m := by
  unfold clamp_norm
  split_ifs with h
  · exact h
  · push_neg at h
    have hx : 0 < pnorm p x := lt_of_le_of_lt hm h
    rw [pnorm_smul p _ (div_nonneg hm hx.le) x, div_mul_cancel₀ m (ne_of_gt hx)]

/-- A slice whose p-norm is at most the limit is returned unchanged. -/
lemma clamp_norm_eq_self {n : ℕ} (p : NormOrder) (m : ℝ) (x : Fin n → ℝ)
    (h : pnorm p x ≤ m) : clamp_norm p m x = x := by
  unfold clamp_norm
  exact if_pos h

/-- The tolerance constant is nonnegative. -/
lemma clampEps_nonneg : 0 ≤ clampEps := by
  unfold clampEps
  norm_num

end NormLemmas

/-- C3: every slice of `clamp_norm(x, maxnorm=m, p, dim)` has p-norm at most
`m + ε` (here exactly at most `m`, hence within the 1e-6 tolerance), and a
slice whose p-norm exceeds `m` is rescaled by the factor `m / norm`. -/
theorem clamp_norm_le_maxnorm_add_eps {n : ℕ} (p : NormOrder) (m : ℝ)
    (x : Fin n → ℝ) (hm : 0 ≤ m) :
    pnorm p (clamp_norm p m x) ≤ m + clampEps ∧
      (m < pnorm p x → clamp_norm p m x = fun i => m / pnorm p x * x i) := by
  constructor
  · exact le_add_of_le_of_nonneg (clamp_norm_pnorm_le p m x hm) clampEps_nonneg
  · intro hgt
    unfold clamp_norm
    exact if_neg (not_le.mpr hgt)

/-- Witness for C3 at the concrete slice `x = ![2]` with `p = 1`, `m = 1`:
the limit is nonnegative, the clamped norm is within tolerance, and the
slice (of 1-norm 2 > 1) is rescaled by `1 / 2`. -/
theorem clamp_norm_le_maxnorm_add_eps_witness :
    pnorm NormOrder.one (clamp_norm NormOrder.one 1 (fun _ : Fin 1 => (2 : ℝ)))
        ≤ 1 + clampEps ∧
      clamp_norm NormOrder.one 1 (fun _ : Fin 1 => (2 : ℝ)) =
        fun i => 1 / pnorm NormOrder.one (fun _ : Fin 1 => (2 : ℝ)) *
          (fun _ : Fin 1 => (2 : ℝ)) i := by
  have h := clamp_norm_le_maxnorm_add_eps NormOrder.one 1
    (fun _ : Fin 1 => (2 : ℝ)) zero_le_one
  have hgt : (1 : ℝ) < pnorm NormOrder.one (fun _ : Fin 1 => (2 : ℝ)) := by
    norm_num [pnorm]
  exact ⟨h.1, h.2 hgt⟩

/-- C4: every slice whose p-norm is strictly less than the limit is returned
by `clamp_norm` exactly unchanged. -/
theorem clamp_norm_id_of_lt {n : ℕ} (p : NormOrder) (m : ℝ) (x : Fin n → ℝ)
    (hlt : pnorm p x < m) : clamp_norm p m x = x :=
  clamp_norm_eq_self p m x hlt.le

/-- Witness for C4 at the zero slice with `p = 2`, `m = 1`: its 2-norm 0 is
strictly below 1 and the slice is returned unchanged. -/
theorem clamp_norm_id_of_lt_witness :
    clamp_norm NormOrder.two 1 (fun _ : Fin 1 => (0 : ℝ)) =
      fun _ : Fin 1 => (0 : ℝ) := by
  refine clamp_norm_id_of_lt NormOrder.two 1 _ ?_
  norm_num [pnorm]

/-- C6: packing equal-shaped real and imaginary parts with
`combine_complex` and unpacking with `split_complex` is lossless: the round
trip returns both components with exact equality. -/
theorem split_combine_complex_roundtrip (re im : List ℝ)
    (hlen : re.length = im.length) :
    split_complex (combine_complex re im) = (re, im) := by
  have hl : (re ++ im).length / 2 = re.length := by
    rw [List.length_append, ← hlen]
    omega
  unfold split_complex combine_complex
  rw [hl, List.take_left, List.drop_left]

/-- Witness for C6 at the concrete pair `re = [1]`, `im = [0]` of equal
length. -/
theorem split_combine_complex_roundtrip_witness :
    split_complex (combine_complex [(1 : ℝ)] [(0 : ℝ)]) = ([(1 : ℝ)], [(0 : ℝ)]) :=
  split_combine_complex_roundtrip [(1 : ℝ)] [(0 : ℝ)] rfl

/-- C9 counterexample: the message formed by concatenating both signatures
contains the literal out-of-memory signature, yet `is_cudnn_error` is true
on it (the claim asserts it would be false), so the two predicates are not
mutually exclusive on all messages. -/
theorem cuda_error_predicates_cex :
    containsSig cudaOomSig (cudaOomSig ++ cudnnSig) = true ∧
      is_cuda_oom_error (cudaOomSig ++ cudnnSig) = true ∧
      is_cudnn_error (cudaOomSig ++ cudnnSig) = true := by
  decide

/-- C9 (amended): each predicate is exactly the fixed-substring test for its
own signature — so a message containing a signature makes the corresponding
predicate true, and a message containing neither makes both false — and the
classification is mutually exclusive on the signature strings themselves
(each signature triggers only its own predicate), though not on messages
containing both signatures. -/
theorem cuda_error_predicates_amended (msg : List Char) :
    is_cuda_oom_error msg = containsSig cudaOomSig msg ∧
      is_cudnn_error msg = containsSig cudnnSig msg ∧
      is_cuda_oom_error cudaOomSig = true ∧
      is_cudnn_error cudaOomSig = false ∧
      is_cudnn_error cudnnSig = true ∧
      is_cuda_oom_error cudnnSig = false :=
  ⟨rfl, rfl, by decide, by decide, by decide, by decide⟩

/-- The squared Euclidean norm of a slice is the sum of its squared
entries. -/
lemma pnorm_two_sq {n : ℕ} (v : Fin n → ℝ) :
    pnorm NormOrder.two v ^ 2 = ∑ k, v k ^ 2 :=
  Real.sq_sqrt (Finset.sum_nonneg fun _ _ => sq_nonneg _)

/-- C1: the interaction function equals the negative squared Euclidean
distance between the clamped projected head plus the relation and the
clamped projected tail, along the last axis: both projections are clamped
to unit 2-norm before the translation distance is taken. -/
theorem interaction_function_neg_sq_dist {B C : Type} {D K : ℕ}
    (h : B → C → Fin D → ℝ) (r : B → C → Fin K → ℝ) (t : B → C → Fin D → ℝ)
    (m_r : B → C → Fin D → Fin K → ℝ) (b : B) (c : C) :
    interaction_function h r t m_r b c =
      -(∑ k, (clamp_norm NormOrder.two 1 (vecMat (h b c) (m_r b c)) k
          + r b c k
          - clamp_norm NormOrder.two 1 (vecMat (t b c) (m_r b c)) k) ^ 2) := by
  simp only [interaction_function]
  rw [pnorm_two_sq]

/-- Summing a Kronecker-delta row against an entity slice yields the
identity-like pad/truncate embedding of that slice. -/
lemma sum_delta_mul {D K : ℕ} (e : Fin D → ℝ) (k : Fin K) :
    (∑ i : Fin D, (if (k : ℕ) = (i : ℕ) then (1 : ℝ) else 0) * e i) =
      identity_embed e k := by
  unfold identity_embed
  by_cases hk : (k : ℕ) < D
  · rw [dif_pos hk]
    have hcong : ∀ i : Fin D,
        (if (k : ℕ) = (i : ℕ) then (1 : ℝ) else 0) * e i =
          if (⟨(k : ℕ), hk⟩ : Fin D) = i then e i else 0 := by
      intro i
      rw [ite_mul, one_mul, zero_mul]
      refine if_congr ?_ rfl rfl
      exact ⟨fun hv => Fin.ext hv, fun hv => congrArg Fin.val hv⟩
    rw [Finset.sum_congr rfl fun i _ => hcong i, Finset.sum_ite_eq]
    simp
  · rw [dif_neg hk]
    refine Finset.sum_eq_zero fun i _ => ?_
    have hne : (k : ℕ) ≠ (i : ℕ) := fun hv => hk (hv ▸ i.isLt)
    rw [if_neg hne, zero_mul]

/-- C5: the factored entity projection agrees exactly (hence within any
floating tolerance) with the explicit matrix form that materializes
`r_p e_pᵀ + I`, and every output slice has 2-norm at most `1 + ε`. -/
theorem project_entity_equiv_matrix_form {D K : ℕ} (e e_p : Fin D → ℝ)
    (r_p : Fin K → ℝ) :
    project_entity e e_p r_p = project_entity_matrix e e_p r_p ∧
      pnorm NormOrder.two (project_entity e e_p r_p) ≤ 1 + clampEps := by
  constructor
  · unfold project_entity project_entity_matrix
    refine congrArg (clamp_norm NormOrder.two 1) (funext fun k => ?_)
    simp only [add_mul, Finset.sum_add_distrib, sum_delta_mul, Finset.mul_sum,
      mul_assoc]
  · unfold project_entity
    exact le_add_of_le_of_nonneg
      (clamp_norm_pnorm_le _ _ _ zero_le_one) clampEps_nonneg

/-- C7: on a batch of `b` index rows, `score_hrt` returns `b` rows of one
score each, while `score_t` and `score_h` return `b` rows of one score per
candidate entity. -/
theorem score_shapes {E R D K : ℕ} (M : TransRModel E R D K)
    (b1 : List (Fin E × Fin R × Fin E)) (b2 : List (Fin E × Fin R))
    (b3 : List (Fin R × Fin E)) :
    (score_hrt M b1).map List.length = List.replicate b1.length 1 ∧
      (score_t M b2).map List.length = List.replicate b2.length E ∧
      (score_h M b3).map List.length = List.replicate b3.length E := by
  refine ⟨?_, ?_, ?_⟩ <;>
    simp [score_hrt, score_t, score_h, List.map_map, Function.comp_def,
      List.length_ofFn]

/-- C2: for in-range indices, the entry of the `score_t` tensor at batch
row `(h, r)` and candidate column `t` equals the single score `score_hrt`
computes for the triple `(h, r, t)`, and the entry of the `score_h` tensor
at batch row `(r, t)` and candidate column `h` equals that same score
(exact equality, hence within any floating tolerance). -/
theorem score_modes_agree {E R D K : ℕ} (M : TransRModel E R D K)
    (tb : List (Fin E × Fin R)) (hb : List (Fin R × Fin E)) (i j : ℕ)
    (h t : Fin E) (r : Fin R)
    (hrow : tb[i]? = some (h, r)) (hrow2 : hb[j]? = some (r, t)) :
    ((score_t M tb)[i]?.bind fun row => row[(t : ℕ)]?) =
        ((score_hrt M [(h, r, t)])[0]?.bind fun row => row[0]?) ∧
      ((score_h M hb)[j]?.bind fun row => row[(h : ℕ)]?) =
        ((score_hrt M [(h, r, t)])[0]?.bind fun row => row[0]?) := by
  constructor
  · rw [score_t, score_hrt, List.getElem?_map, hrow]
    simp [List.getElem?_ofFn, List.ofFnNthVal, t.isLt, interaction_function]
  · rw [score_h, score_hrt, List.getElem?_map, hrow2]
    simp [List.getElem?_ofFn, List.ofFnNthVal, h.isLt, interaction_function]

/-- Witness for C2 on the one-entity, one-relation zero model with
singleton batches. -/
theorem score_modes_agree_witness :
    ((score_t transRZeroNorm1 [(0, 0)])[0]?.bind fun row => row[(0 : ℕ)]?) =
        ((score_hrt transRZeroNorm1 [(0, 0, 0)])[0]?.bind fun row => row[0]?) ∧
      ((score_h transRZeroNorm1 [(0, 0)])[0]?.bind fun row => row[(0 : ℕ)]?) =
        ((score_hrt transRZeroNorm1 [(0, 0, 0)])[0]?.bind fun row => row[0]?) :=
  score_modes_agree transRZeroNorm1 [(0, 0)] [(0, 0)] 0 0 0 0 0 rfl rfl

/-- C8: two TransR models identical in every stored parameter but with
different values of the `scoring_fct_norm` hyper-parameter produce
identical score tensors from all three scoring entry points on every
batch: the stored norm order never influences the computed scores. -/
theorem scoring_fct_norm_no_influence {E R D K : ℕ}
    (M M' : TransRModel E R D K)
    (hn : M.scoring_fct_norm ≠ M'.scoring_fct_norm)
    (he : M.entity_embeddings = M'.entity_embeddings)
    (hr : M.relation_embeddings = M'.relation_embeddings)
    (hp : M.relation_projections = M'.relation_projections)
    (b1 : List (Fin E × Fin R × Fin E)) (b2 : List (Fin E × Fin R))
    (b3 : List (Fin R × Fin E)) :
    score_hrt M b1 = score_hrt M' b1 ∧ score_t M b2 = score_t M' b2 ∧
      score_h M b3 = score_h M' b3 := by
  refine ⟨?_, ?_, ?_⟩ <;> simp only [score_hrt, score_t, score_h, he, hr, hp]

/-- Witness for C8: the two concrete zero models differ only in
`scoring_fct_norm` (1 versus 2) and give equal scores on singleton
batches. -/
theorem scoring_fct_norm_no_influence_witness :
    score_hrt transRZeroNorm1 [(0, 0, 0)] = score_hrt transRZeroNorm2 [(0, 0, 0)] ∧
      score_t transRZeroNorm1 [(0, 0)] = score_t transRZeroNorm2 [(0, 0)] ∧
      score_h transRZeroNorm1 [(0, 0)] = score_h transRZeroNorm2 [(0, 0)] :=
  scoring_fct_norm_no_influence transRZeroNorm1 transRZeroNorm2
    (by decide) rfl rfl rfl [(0, 0, 0)] [(0, 0)] [(0, 0)]

/-- C10: constructing a TransR model from embedding stores whose declared
dimensionalities do not match the model's expected dimensions yields the
`ConfigurationError` at construction time; scoring entry points only accept
the successfully constructed model, so the failure cannot be deferred to
score time. -/
theorem mkTransR_error_on_dim_mismatch (E R D K : ℕ)
    (ent rel proj : RawStore)
    (hmis : ent.embedding_dim ≠ D ∨ rel.embedding_dim ≠ K ∨
      proj.embedding_dim ≠ D * K) :
    mkTransR E R D K ent rel proj =
      Except.error ConfigurationError.dimensionMismatch := by
  unfold mkTransR
  rw [if_neg]
  tauto

/-- Witness for C10: an entity store declaring dimension 3 mismatches a
model expecting embedding dimension 4, and construction fails with the
dimension-mismatch configuration error. -/
theorem mkTransR_error_on_dim_mismatch_witness :
    mkTransR 7 3 4 5 ⟨7, 3, []⟩ ⟨3, 5, []⟩ ⟨3, 20, []⟩ =
      Except.error ConfigurationError.dimensionMismatch :=
  mkTransR_error_on_dim_mismatch 7 3 4 5 ⟨7, 3, []⟩ ⟨3, 5, []⟩ ⟨3, 20, []⟩
    (Or.inl (by decide))
